import Mathlib

/-!
Verification development for the `dict-go` repository (`dict.go`):
a dictionary web front-end that looks up words from a remote API,
caches raw response bodies on disk, and renders them via a template.

The Go source is shallowly embedded.  File-system access, the outbound
HTTP fetch, and JSON (un)marshalling are modelled as oracles supplied in
an `Env` record; `searchWord` additionally returns a trace of the file
reads, HTTP calls and cache-file writes it performs, and `log.Fatal`
(which aborts the whole process in Go) is modelled by a distinguished
`Outcome.fatal` result.
-/

set_option autoImplicit false
set_option linter.dupNamespace false

namespace DictGo

/-- Raw response / file bytes (`[]byte` in Go). -/
abbrev Bytes := List Nat

/-! ### Go `path.Clean` / `path.Join`

`dict.go` derives the cache file as `path.Join(app.CacheDir, word)`.
Go's `path.Join` joins the non-empty arguments with `"/"` and then
applies `path.Clean` (lexical processing of `.` , `..` , and repeated
slashes).  We embed that algorithm: split on `'/'`, process the
components with a stack, and re-render.
-/

/-- Split a character list on `'/'` (the component decomposition that
`path.Clean` processes). `acc` holds the current component reversed. -/
def splitSlash : List Char → List Char → List (List Char)
  | acc, [] => [acc.reverse]
  | acc, c :: cs => if c = '/' then acc.reverse :: splitSlash [] cs else splitSlash (c :: acc) cs

/-- One step of `path.Clean`'s component processing: drop empty and `"."`
components, let `".."` pop a previous component (or be dropped at the
root of a rooted path, or pile up at the front of a relative path), and
push everything else.  The stack is kept top-first. -/
def cleanStep (rooted : Bool) (stack : List (List Char)) (c : List Char) : List (List Char) :=
  if c = [] ∨ c = ['.'] then stack
  else if c = ['.', '.'] then
    match stack with
    | [] => if rooted then [] else [['.', '.']]
    | top :: rest => if top = ['.', '.'] then c :: top :: rest else rest
  else c :: stack

/-- Process a whole component list through `cleanStep`. -/
def cleanStack (rooted : Bool) (stack : List (List Char)) (l : List (List Char)) :
    List (List Char) :=
  l.foldl (cleanStep rooted) stack

/-- Join components back with `'/'`. -/
def joinComps : List (List Char) → List Char
  | [] => []
  | [c] => c
  | c :: cs => c ++ '/' :: joinComps cs

/-- Render a processed (bottom-first) component list back into a path
string, restoring the leading `'/'` of rooted paths; an empty result is
`"/"` (rooted) or `"."` (relative), exactly as in Go's `path.Clean`. -/
def renderPath (rooted : Bool) (stack : List (List Char)) : String :=
  if rooted then
    if stack = [] then "/" else ⟨'/' :: joinComps stack⟩
  else
    if stack = [] then "." else ⟨joinComps stack⟩

/-- Whether a path is rooted (starts with `'/'`). -/
def rootedOf (s : String) : Bool :=
  match s.data with
  | c :: _ => c == '/'
  | [] => false

/-- Go's `path.Clean`. -/
def clean (s : String) : String :=
  renderPath (rootedOf s) ((cleanStack (rootedOf s) [] (splitSlash [] s.data)).reverse)

/-- Go's `path.Join` for two arguments: join the non-empty arguments
with `"/"` and `Clean` the result; all-empty input yields `""`. -/
def goJoin (a b : String) : String :=
  if a = "" then (if b = "" then "" else clean b)
  else if b = "" then clean a
  else clean (a ++ "/" ++ b)

/-- `p` lies within the directory `root`: it is `root` itself or an
extension of `root ++ "/"`. -/
def isWithin (root p : String) : Prop :=
  p = root ∨ ∃ rest : String, p = root ++ "/" ++ rest

/-! ### Go `strings.HasPrefix` -/

/-- Character-list prefix test. -/
def hasPfxChars : List Char → List Char → Bool
  | _, [] => true
  | [], _ :: _ => false
  | c :: cs, p :: ps => c == p && hasPfxChars cs ps

/-- Go's `strings.HasPrefix s pre`. -/
def hasPfx (s pre : String) : Bool :=
  hasPfxChars s.data pre.data

/-! ### Data model (`dict.go` lines 17-52) -/

structure Phonetic where
  Text : String
  Audio : String
deriving DecidableEq

structure Definition where
  Definition : String
  Synonyms : List String
  Antonyms : List String
  Example : String
deriving DecidableEq

structure Meaning where
  PartOfSpeech : String
  Definitions : List Definition
  Synonyms : List String
  Antonyms : List String
deriving DecidableEq

structure Word where
  Word : String
  Phonetics : List Phonetic
  Meanings : List Meaning
deriving DecidableEq

structure ErrorResponse where
  Title : String
  Message : String
deriving DecidableEq

/-- `AppContext`.  The Go field `Template *template.Template` is an
opaque pointer consumed only by the rendering boundary; we model it by
an arbitrary type parameter `T`.  `Error *ErrorResponse` is `none` for
the nil pointer. -/
structure AppContext (T : Type) where
  CacheDir : String
  Words : List Word
  Template : T
  Error : Option ErrorResponse
deriving DecidableEq

/-! ### Effect oracles -/

/-- Result of `os.ReadFile`: success with the data, a does-not-exist
error (`os.IsNotExist`), or any other error. -/
inductive ReadResult where
  | ok (data : Bytes)
  | errNotExist
  | errOther
deriving DecidableEq

/-- Whether an `os.ReadFile` result is a success. -/
def ReadResult.isOk : ReadResult → Bool
  | .ok _ => true
  | _ => false

/-- Result of `http.Get` plus `io.ReadAll(resp.Body)`: a transport-level
error, a body-read error, or a full response with its status text
(e.g. `"200 OK"`) and body bytes. -/
inductive FetchResult where
  | transportError
  | bodyReadError (status : String)
  | response (status : String) (body : Bytes)
deriving DecidableEq

/-- The environment `searchWord` runs in: the file system read oracle,
the HTTP fetch oracle, and the two JSON decoders used by
`json.Unmarshal` (into `[]Word` and into `ErrorResponse`). `none`
models a decode error. -/
structure Env where
  readFile : String → ReadResult
  fetch : String → FetchResult
  decodeWords : Bytes → Option (List Word)
  decodeError : Bytes → Option ErrorResponse

/-- Result of one `searchWord` call: the updated context, or `fatal`
when the Go code reaches `log.Fatal` (process abort). -/
inductive Outcome (T : Type) where
  | ok (app : AppContext T)
  | fatal
deriving DecidableEq

/-- The part of a `searchWord` result produced from line 73 on
(the fetch and everything after it): outcome, HTTP calls made, and
cache-file writes attempted. -/
structure FetchStep (T : Type) where
  outcome : Outcome T
  calls : List String
  writes : List (String × Bytes)
deriving DecidableEq

/-- Full result of `searchWord`: outcome plus the trace of file reads,
HTTP calls, and cache-file writes attempted. -/
structure SWResult (T : Type) where
  outcome : Outcome T
  reads : List String
  calls : List String
  writes : List (String × Bytes)
deriving DecidableEq

/-- The fixed upstream endpoint (line 73). -/
def baseUrl : String := "https://api.dictionaryapi.dev/api/v2/entries/en/"

/-- Lines 73-108 of `dict.go`: fetch `baseUrl + word`; on transport or
body-read error just return (context unchanged); if the status text
lacks the prefix `"20"` parse the body as an `ErrorResponse`
(`log.Fatal` on decode failure), append `" — " + word` to its title and
set `app.Error`; otherwise write the raw body to `cacheFile` when
`cacheFile != word` and decode it into `app.Words` (`log.Fatal` on
decode failure). -/
def fetchWord {T : Type} (env : Env) (word : String) (app : AppContext T)
    (cacheFile : String) : FetchStep T :=
  let url := baseUrl ++ word
  match env.fetch url with
  | .transportError => ⟨.ok app, [url], []⟩
  | .bodyReadError _ => ⟨.ok app, [url], []⟩
  | .response status body =>
    if !hasPfx status "20" then
      match env.decodeError body with
      | none => ⟨.fatal, [url], []⟩
      | some e =>
        ⟨.ok { app with Error := some { e with Title := e.Title ++ " — " ++ word } }, [url], []⟩
    else
      let writes := if cacheFile ≠ word then [(cacheFile, body)] else []
      match env.decodeWords body with
      | none => ⟨.fatal, [url], writes⟩
      | some ws => ⟨.ok { app with Words := ws }, [url], writes⟩

/-- Lines 54-108 of `dict.go`: derive `cacheFile = path.Join(app.CacheDir, word)`;
when `cacheFile != word`, try the cache file first — a successful read
decodes into `app.Words` and returns (`log.Fatal` on decode failure),
any read error falls through to the network fetch. -/
def searchWord {T : Type} (env : Env) (word : String) (app : AppContext T) : SWResult T :=
  let cacheFile := goJoin app.CacheDir word
  if cacheFile ≠ word then
    match env.readFile cacheFile with
    | .ok data =>
      match env.decodeWords data with
      | none => ⟨.fatal, [cacheFile], [], []⟩
      | some ws => ⟨.ok { app with Words := ws }, [cacheFile], [], []⟩
    | .errNotExist =>
      let r := fetchWord env word app cacheFile
      ⟨r.outcome, [cacheFile], r.calls, r.writes⟩
    | .errOther =>
      let r := fetchWord env word app cacheFile
      ⟨r.outcome, [cacheFile], r.calls, r.writes⟩
  else
    let r := fetchWord env word app cacheFile
    ⟨r.outcome, [], r.calls, r.writes⟩

/-! ### `initCacheDir` (`dict.go` lines 110-131)

Its doc comment: "initCacheDir initializes the cache directory and
returns its path. ... The path is either the value of
$XDG_CACHE_HOME/godict or $HOME/.cache/godict.  If the initialization
fails, an empty string is returned, indicating that caching is
disabled."
-/

/-- The process environment and directory-creation oracle used by
`initCacheDir`: `os.Getenv` (returning `""` for an unset variable) and
whether `os.MkdirAll` succeeds on a given path. -/
structure OsEnv where
  getenv : String → String
  mkdirOk : String → Bool

/-- Result of `initCacheDir`: the returned string, or `fatal` when the
Go code reaches `log.Fatal` (process abort before the server starts). -/
inductive InitResult where
  | ok (dir : String)
  | fatal
deriving DecidableEq

/-- Lines 115-131 of `dict.go`: take `$XDG_CACHE_HOME`, else
`$HOME/.cache` (calling `log.Fatal` when `$HOME` is also unset), append
`godict`, create the directory, and return `""` (caching disabled) when
creation fails. -/
def initCacheDir (os : OsEnv) : InitResult :=
  let cacheDir := os.getenv "XDG_CACHE_HOME"
  if cacheDir = "" then
    let home := os.getenv "HOME"
    if home = "" then
      InitResult.fatal
    else
      let cacheDir := goJoin (goJoin home ".cache") "godict"
      if os.mkdirOk cacheDir then InitResult.ok cacheDir else InitResult.ok ""
  else
    let cacheDir := goJoin cacheDir "godict"
    if os.mkdirOk cacheDir then InitResult.ok cacheDir else InitResult.ok ""

/-! ### Rate limiter (`dict.go` lines 142-156 and 212-214)

`handleWithRateLimit` allocates `limiter := time.Tick(time.Second)`
and returns a closure that does a non-blocking receive on it: a ticker
channel with a one-element buffer, so between two consecutive requests
the limiter holds at most one token, a tick refills it to one, and a
non-blocking receive consumes it or — when empty — rejects the request
without invoking the wrapped handler.

`main` (lines 212-214) calls `handleWithRateLimit` once per endpoint
(`/`, `/search`, `/static/`), so every endpoint gets its *own* ticker.
We model the discrete-time behaviour: each limiter is a single-token
cell; a tick sets it, an admitted request clears it, and "within one
replenishment interval" means no tick event occurs between the
requests considered.
-/

/-- The three endpoints registered in `main`. -/
inductive Endpoint where
  | root
  | search
  | staticFiles
deriving DecidableEq

/-- One `time.Tick(time.Second)` limiter channel: whether a token is
currently buffered. -/
structure RLimiter where
  token : Bool
deriving DecidableEq

/-- A tick fires: the one-element ticker buffer now holds a token. -/
def RLimiter.tick (_ : RLimiter) : RLimiter := ⟨true⟩

/-- The non-blocking `select` in the wrapper returned by
`handleWithRateLimit`: consume the token and invoke the wrapped handler,
or hit `default` and reject without invoking it.  The `Bool` is whether
the wrapped handler was invoked. -/
def RLimiter.tryAdmit (l : RLimiter) : Bool × RLimiter :=
  if l.token then (true, ⟨false⟩) else (false, l)

/-- The server's limiter state after `main`: one independent limiter
per registered endpoint (lines 212-214 wrap each handler separately). -/
structure ServerState where
  rootLimiter : RLimiter
  searchLimiter : RLimiter
  staticLimiter : RLimiter
deriving DecidableEq

/-- The limiter owned by an endpoint's wrapper. -/
def ServerState.limiter (st : ServerState) : Endpoint → RLimiter
  | .root => st.rootLimiter
  | .search => st.searchLimiter
  | .staticFiles => st.staticLimiter

/-- Replace the limiter owned by an endpoint's wrapper. -/
def ServerState.setLimiter (st : ServerState) (e : Endpoint) (l : RLimiter) : ServerState :=
  match e with
  | .root => { st with rootLimiter := l }
  | .search => { st with searchLimiter := l }
  | .staticFiles => { st with staticLimiter := l }

/-- One inbound request to endpoint `e`: its wrapper consults its own
limiter.  Returns whether the wrapped handler was invoked. -/
def handleRequest (st : ServerState) (e : Endpoint) : Bool × ServerState :=
  let (adm, l) := (st.limiter e).tryAdmit
  (adm, st.setLimiter e l)

/-- Process a sequence of requests with no intervening tick (all issued
within one replenishment interval); returns the per-request
admitted/rejected flags. -/
def runRequests (st : ServerState) : List Endpoint → List Bool
  | [] => []
  | e :: es =>
    let (adm, st') := handleRequest st e
    adm :: runRequests st' es

/-- The state one tick after quiescence: every endpoint's ticker buffer
holds its token. -/
def allTicked : ServerState := ⟨⟨true⟩, ⟨true⟩, ⟨true⟩⟩

-- sanity checks on the path embedding (mirroring Go's path.Clean/Join)
example : clean "hello" = "hello" := by decide
example : clean "/a/b/../c/" = "/a/c" := by decide
example : clean "a/../.." = ".." := by decide
example : clean "" = "." := by decide
example : clean "/.." = "/" := by decide
example : goJoin "" "hello" = "hello" := by decide
example : goJoin "/var/cache/godict" "hello" = "/var/cache/godict/hello" := by decide
example : goJoin "/var/cache/godict" "../../../etc/passwd" = "/etc/passwd" := by decide
example : goJoin "/var/cache/godict" "." = "/var/cache/godict" := by decide
example : goJoin "/var/cache/godict" "" = "/var/cache/godict" := by decide
example : hasPfx "226 IM Used" "2" = true := by decide
example : hasPfx "226 IM Used" "20" = false := by decide
example : hasPfx "200 OK" "20" = true := by decide

/-! ### Structural lemmas about `searchWord` -/

/-- Every successful `fetchWord` outcome is the input context unchanged,
or with only `Words` replaced, or with only `Error` replaced. -/
theorem fetchWord_ok_shape {T : Type} (env : Env) (word : String) (app : AppContext T)
    (cf : String) (app' : AppContext T)
    (h : (fetchWord env word app cf).outcome = .ok app') :
    app' = app ∨ (∃ ws, app' = { app with Words := ws }) ∨
      ∃ e, app' = { app with Error := some e } := by
  simp only [fetchWord] at h
  split at h
  · simp at h; exact Or.inl h.symm
  · simp at h; exact Or.inl h.symm
  · split at h
    · split at h
      · simp at h
      · simp at h; exact Or.inr (Or.inr ⟨_, h.symm⟩)
    · split at h
      · simp at h
      · simp at h; exact Or.inr (Or.inl ⟨_, h.symm⟩)

/-- Every successful `searchWord` outcome is the input context
unchanged, or with only `Words` replaced, or with only `Error`
replaced. -/
theorem searchWord_ok_shape {T : Type} (env : Env) (word : String) (app : AppContext T)
    (app' : AppContext T)
    (h : (searchWord env word app).outcome = .ok app') :
    app' = app ∨ (∃ ws, app' = { app with Words := ws }) ∨
      ∃ e, app' = { app with Error := some e } := by
  simp only [searchWord] at h
  split at h
  · split at h
    · split at h
      · simp at h
      · simp at h; exact Or.inr (Or.inl ⟨_, h.symm⟩)
    · exact fetchWord_ok_shape env word app _ app' (by simpa using h)
    · exact fetchWord_ok_shape env word app _ app' (by simpa using h)
  · exact fetchWord_ok_shape env word app _ app' (by simpa using h)

/-- Every file `searchWord` reads is the derived cache file. -/
theorem searchWord_reads_eq {T : Type} (env : Env) (word : String) (app : AppContext T) :
    ∀ p ∈ (searchWord env word app).reads, p = goJoin app.CacheDir word := by
  intro p hp
  simp only [searchWord] at hp
  split at hp
  · split at hp
    · split at hp
      · simp at hp; exact hp
      · simp at hp; exact hp
    · simp at hp; exact hp
    · simp at hp; exact hp
  · simp at hp

/-- Every file `fetchWord` writes is the supplied cache file. -/
theorem fetchWord_writes_fst {T : Type} (env : Env) (word : String) (app : AppContext T)
    (cf : String) :
    ∀ pb ∈ (fetchWord env word app cf).writes, pb.1 = cf := by
  intro pb hpb
  simp only [fetchWord] at hpb
  split at hpb
  · simp at hpb
  · simp at hpb
  · split at hpb
    · split at hpb
      · simp at hpb
      · simp at hpb
    · split at hpb
      all_goals
        simp only [SWResult.writes] at hpb
        by_cases hcw : cf ≠ word
        · simp [hcw] at hpb; rw [hpb]
        · simp [hcw] at hpb

/-- Every file `searchWord` writes is the derived cache file. -/
theorem searchWord_writes_fst {T : Type} (env : Env) (word : String) (app : AppContext T) :
    ∀ pb ∈ (searchWord env word app).writes, pb.1 = goJoin app.CacheDir word := by
  intro pb hpb
  simp only [searchWord] at hpb
  split at hpb
  · split at hpb
    · split at hpb
      · simp at hpb
      · simp at hpb
    · exact fetchWord_writes_fst env word app _ pb (by simpa using hpb)
    · exact fetchWord_writes_fst env word app _ pb (by simpa using hpb)
  · exact fetchWord_writes_fst env word app _ pb (by simpa using hpb)

/-- When the cache does not hit (the guard is skipped or the read
errors), `searchWord`'s outcome and writes are those of the fetch
phase. -/
theorem searchWord_of_miss {T : Type} (env : Env) (word : String) (app : AppContext T)
    (hmiss : goJoin app.CacheDir word = word ∨
      (env.readFile (goJoin app.CacheDir word)).isOk = false) :
    (searchWord env word app).outcome =
      (fetchWord env word app (goJoin app.CacheDir word)).outcome ∧
    (searchWord env word app).writes =
      (fetchWord env word app (goJoin app.CacheDir word)).writes := by
  simp only [searchWord]
  by_cases hg : goJoin app.CacheDir word ≠ word
  · rw [if_pos hg]
    cases hr : env.readFile (goJoin app.CacheDir word) with
    | ok data =>
      rcases hmiss with h | h
      · exact absurd h hg
      · rw [hr] at h; simp [ReadResult.isOk] at h
    | errNotExist => exact ⟨rfl, rfl⟩
    | errOther => exact ⟨rfl, rfl⟩
  · rw [if_neg hg]
    exact ⟨rfl, rfl⟩

/-! ### Lemmas about the path embedding -/

/-- Splitting distributes over concatenation at a separator. -/
theorem splitSlash_append (l1 : List Char) : ∀ (acc l2 : List Char),
    splitSlash acc (l1 ++ '/' :: l2) = splitSlash acc l1 ++ splitSlash [] l2 := by
  induction l1 with
  | nil => intro acc l2; simp [splitSlash]
  | cons c cs ih =>
    intro acc l2
    by_cases hc : c = '/'
    · subst hc; simp [splitSlash, ih]
    · simp [splitSlash, hc, ih]

/-- Component processing composes over concatenation. -/
theorem cleanStack_append (r : Bool) (st : List (List Char)) (l1 l2 : List (List Char)) :
    cleanStack r st (l1 ++ l2) = cleanStack r (cleanStack r st l1) l2 := by
  simp [cleanStack, List.foldl_append]

/-- Components free of `".."` never pop the existing stack: processing
them only piles new entries on top. -/
theorem cleanStack_no_dd (r : Bool) : ∀ (l st : List (List Char)),
    (∀ c ∈ l, c ≠ ['.', '.']) → ∃ extra, cleanStack r st l = extra ++ st := by
  intro l
  induction l with
  | nil => exact fun st _ => ⟨[], rfl⟩
  | cons c cs ih =>
    intro st h
    have hc : c ≠ ['.', '.'] := h c (List.mem_cons_self c cs)
    have hcs : ∀ x ∈ cs, x ≠ ['.', '.'] := fun x hx => h x (List.mem_cons_of_mem _ hx)
    have hstep : cleanStack r st (c :: cs) = cleanStack r (cleanStep r st c) cs := rfl
    rw [hstep]
    by_cases h1 : c = [] ∨ c = ['.']
    · have he : cleanStep r st c = st := by simp [cleanStep, h1]
      rw [he]; exact ih st hcs
    · have he : cleanStep r st c = c :: st := by simp [cleanStep, h1, hc]
      rw [he]
      obtain ⟨extra, hex⟩ := ih (c :: st) hcs
      exact ⟨extra ++ [c], by rw [hex]; simp⟩

/-- Joining distributes over concatenation of non-empty component
lists. -/
theorem joinComps_append : ∀ (xs ys : List (List Char)), xs ≠ [] → ys ≠ [] →
    joinComps (xs ++ ys) = joinComps xs ++ '/' :: joinComps ys := by
  intro xs
  induction xs with
  | nil => intro ys h _; exact absurd rfl h
  | cons x xs ih =>
    intro ys _ hys
    cases xs with
    | nil =>
      cases ys with
      | nil => exact absurd rfl hys
      | cons y ys2 => simp [joinComps]
    | cons x2 xs2 =>
      have hrec := ih ys (by simp) hys
      simp only [List.cons_append] at hrec ⊢
      simp [joinComps, hrec]

/-- Rendering a stack extended by non-empty extra components appends a
`"/"`-separated suffix to the rendering of the original stack. -/
theorem renderPath_append (rooted : Bool) (S E : List (List Char))
    (hS : S ≠ []) (hE : E ≠ []) :
    renderPath rooted (S ++ E) = renderPath rooted S ++ "/" ++ String.mk (joinComps E) := by
  have hSE : S ++ E ≠ [] := by simp [hS]
  apply String.ext
  cases rooted with
  | false =>
    simp only [renderPath, if_neg hS, if_neg hSE, Bool.false_eq_true, if_false]
    rw [joinComps_append S E hS hE]
    simp [String.data_append]
  | true =>
    simp only [renderPath, if_neg hS, if_neg hSE, if_true]
    rw [joinComps_append S E hS hE]
    simp [String.data_append]

/-- A non-empty string prefixed by `"/"` and followed by anything is
still detected as rooted exactly like the prefix. -/
theorem rootedOf_append (root w : String) (h0 : root ≠ "") :
    rootedOf (root ++ "/" ++ w) = rootedOf root := by
  have hd : (root ++ "/" ++ w).data = root.data ++ '/' :: w.data := by
    simp [String.data_append]
  unfold rootedOf
  rw [hd]
  cases hr : root.data with
  | nil => exact absurd (String.ext (by simp [hr])) h0
  | cons c cs => simp

/-- Key lemma: appending a traversal-free word to a clean, non-trivial
root with `path.Join` stays within the root. -/
theorem clean_root_append (root w : String) (hclean : clean root = root)
    (h0 : root ≠ "") (h1 : root ≠ "/") (h2 : root ≠ ".")
    (hw : ['.', '.'] ∉ splitSlash [] w.data) :
    isWithin root (clean (root ++ "/" ++ w)) := by
  have hd : (root ++ "/" ++ w).data = root.data ++ '/' :: w.data := by
    simp [String.data_append]
  have hsplit : splitSlash [] ((root ++ "/" ++ w).data)
      = splitSlash [] root.data ++ splitSlash [] w.data := by
    rw [hd, splitSlash_append]
  have hcl : clean (root ++ "/" ++ w)
      = renderPath (rootedOf root)
          ((cleanStack (rootedOf root)
            (cleanStack (rootedOf root) [] (splitSlash [] root.data))
            (splitSlash [] w.data)).reverse) := by
    unfold clean
    rw [rootedOf_append root w h0, hsplit, cleanStack_append]
  obtain ⟨E, hE⟩ := cleanStack_no_dd (rootedOf root)
    (splitSlash [] w.data)
    (cleanStack (rootedOf root) [] (splitSlash [] root.data))
    (fun c hc => by rintro rfl; exact hw hc)
  rw [hE] at hcl
  have hroot : renderPath (rootedOf root)
      ((cleanStack (rootedOf root) [] (splitSlash [] root.data)).reverse) = root := hclean
  cases he : E with
  | nil =>
    subst he
    simp only [List.nil_append] at hcl
    exact Or.inl (hcl.trans hroot)
  | cons e0 es =>
    subst he
    have hS : (cleanStack (rootedOf root) [] (splitSlash [] root.data)).reverse ≠ [] := by
      intro hnil
      rw [hnil] at hroot
      cases hb : rootedOf root with
      | true => rw [hb] at hroot; simp [renderPath] at hroot; exact h1 hroot.symm
      | false => rw [hb] at hroot; simp [renderPath] at hroot; exact h2 hroot.symm
    have hErev : (e0 :: es).reverse ≠ [] := by simp
    rw [List.reverse_append] at hcl
    rw [renderPath_append (rootedOf root) _ _ hS hErev] at hcl
    rw [hroot] at hcl
    exact Or.inr ⟨String.mk (joinComps (e0 :: es).reverse), hcl⟩

/-- `path.Join` of a clean, non-trivial cache root with a word whose
components contain no `".."` resolves within the root. -/
theorem goJoin_within (root w : String) (hclean : clean root = root)
    (h0 : root ≠ "") (h1 : root ≠ "/") (h2 : root ≠ ".")
    (hw : ['.', '.'] ∉ splitSlash [] w.data) :
    isWithin root (goJoin root w) := by
  by_cases hw0 : w = ""
  · subst hw0
    unfold goJoin
    rw [if_neg h0, if_pos rfl, hclean]
    exact Or.inl rfl
  · unfold goJoin
    rw [if_neg h0, if_neg hw0]
    exact clean_root_append root w hclean h0 h1 h2 hw

/-! ### Further helper lemmas -/

/-- A status text with prefix `"20"` also has prefix `"2"`. -/
theorem hasPfx_two_of_twozero (s : String) (h : hasPfx s "20" = true) :
    hasPfx s "2" = true := by
  have h20 : ("20" : String).data = ['2', '0'] := rfl
  have h2 : ("2" : String).data = ['2'] := rfl
  unfold hasPfx at h ⊢
  rw [h20] at h
  rw [h2]
  cases hd : s.data with
  | nil => rw [hd] at h; simp [hasPfxChars] at h
  | cons c cs =>
    rw [hd] at h
    simp [hasPfxChars] at h ⊢
    exact h.1

/-- When the derived cache file equals the word itself, the fetch phase
never writes a cache file. -/
theorem fetchWord_writes_of_eq {T : Type} (env : Env) (word : String) (app : AppContext T)
    (cf : String) (hcw : cf = word) :
    (fetchWord env word app cf).writes = [] := by
  simp only [fetchWord]
  split
  · rfl
  · rfl
  · split
    · split
      · rfl
      · rfl
    · split
      · simp [hcw]
      · simp [hcw]

/-- Reading back the limiter just stored for an endpoint. -/
theorem limiter_setLimiter (st : ServerState) (e : Endpoint) (l : RLimiter) :
    (st.setLimiter e l).limiter e = l := by
  cases e <;> rfl

/-- With its endpoint's token already consumed and no tick in between,
every further request to that endpoint is rejected. -/
theorem runRequests_no_token (e : Endpoint) : ∀ (es : List Endpoint) (st : ServerState),
    (∀ x ∈ es, x = e) → (st.limiter e).token = false →
    (runRequests st es).count true = 0 := by
  intro es
  induction es with
  | nil => intro st _ _; rfl
  | cons x xs ih =>
    intro st hall htok
    have hx : x = e := hall x (List.mem_cons_self x xs)
    subst hx
    have hadm : handleRequest st x = (false, st.setLimiter x (st.limiter x)) := by
      simp [handleRequest, RLimiter.tryAdmit, htok]
    simp only [runRequests, hadm]
    simp only [List.count_cons]
    have hrec := ih (st.setLimiter x (st.limiter x))
      (fun y hy => hall y (List.mem_cons_of_mem _ hy))
      (by rw [limiter_setLimiter]; exact htok)
    simp [hrec]

/-! ### Concrete sample data and environments (for witnesses) -/

/-- A sample decoded dictionary entry. -/
def sampleWord : Word := ⟨"hello", [⟨"h@loU", ""⟩], []⟩

/-- A sample decoded upstream error body. -/
def sampleErr : ErrorResponse := ⟨"No Definitions Found", "Sorry, we could not find it."⟩

/-- A fresh per-request context with caching disabled (empty root), as
`handleSearch` builds when `initCacheDir` returned `""`. -/
def app0 : AppContext Unit := ⟨"", [], (), none⟩

/-- A fresh per-request context with a configured cache root. -/
def appG : AppContext Unit := ⟨"/var/cache/godict", [], (), none⟩

/-- Upstream answers `226 IM Used` with a body decodable both ways. -/
def env226 : Env :=
  ⟨fun _ => .errNotExist, fun _ => .response "226 IM Used" [1],
   fun _ => some [sampleWord], fun _ => some sampleErr⟩

/-- Upstream answers `404 Not Found` with a decodable error body. -/
def env404 : Env :=
  ⟨fun _ => .errNotExist, fun _ => .response "404 Not Found" [2],
   fun _ => some [sampleWord], fun _ => some sampleErr⟩

/-- Upstream answers `200 OK` with a body decoding to one entry. -/
def env200 : Env :=
  ⟨fun _ => .errNotExist, fun _ => .response "200 OK" [3],
   fun _ => some [sampleWord], fun _ => none⟩

/-- Every cache file reads back `[7]`, which decodes to the empty
entry list; the network is unreachable. -/
def envCacheHit : Env :=
  ⟨fun _ => .ok [7], fun _ => .transportError,
   fun b => if b = [7] then some [] else none, fun _ => none⟩

/-- No cache file exists and the network is unreachable. -/
def envQuiet : Env :=
  ⟨fun _ => .errNotExist, fun _ => .transportError, fun _ => none, fun _ => none⟩

/-- The cache file reads back `[9]`, which fails to decode. -/
def envBadCache : Env :=
  ⟨fun _ => .ok [9], fun _ => .transportError, fun _ => none, fun _ => none⟩

/-- Upstream answers `404 Not Found` with an undecodable body. -/
def envBadErr : Env :=
  ⟨fun _ => .errNotExist, fun _ => .response "404 Not Found" [9],
   fun _ => none, fun _ => none⟩

/-- Upstream answers `200 OK` with an undecodable body. -/
def envBadBody : Env :=
  ⟨fun _ => .errNotExist, fun _ => .response "200 OK" [9],
   fun _ => none, fun _ => none⟩

/-! ### Claim C1 -/

/-- C1, counterexample: the claim says every response whose status text
begins with `"2"` is treated as success, but the code tests the prefix
`"20"` (line 87).  For status `"226 IM Used"` — which begins with `"2"`
— `searchWord` takes the failure branch and parses the body as a
`LookupError`, setting the context's `Error`. -/
theorem c1_counterexample :
    hasPfx "226 IM Used" "2" = true ∧
    (searchWord env226 "hello" app0).outcome =
      .ok { app0 with Error := some ⟨"No Definitions Found — hello",
        "Sorry, we could not find it."⟩ } := by
  constructor
  · decide
  · decide

/-- C1, amended: on an upstream response (reached past the cache, with a
body decodable both as an entry list and as a `LookupError`),
`searchWord` parses the body as a `LookupError` (failure) exactly when
the status text does not begin with `"20"`. -/
theorem c1_amended_classify_20 {T : Type} (env : Env) (word status : String) (body : Bytes)
    (e : ErrorResponse) (ws : List Word) (app : AppContext T)
    (happ : app.Error = none)
    (hmiss : goJoin app.CacheDir word = word ∨
      (env.readFile (goJoin app.CacheDir word)).isOk = false)
    (hresp : env.fetch (baseUrl ++ word) = .response status body)
    (hde : env.decodeError body = some e)
    (hdw : env.decodeWords body = some ws) :
    (∃ app', (searchWord env word app).outcome = .ok app' ∧ app'.Error.isSome = true)
      ↔ hasPfx status "20" = false := by
  rw [(searchWord_of_miss env word app hmiss).1]
  by_cases hs : hasPfx status "20"
  · simp [fetchWord, hresp, hde, hdw, hs, happ]
  · simp [fetchWord, hresp, hde, hdw, hs, happ]

/-- C1, witness for the amended theorem at a concrete `404` response. -/
theorem c1_amended_classify_20_witness :
    ∃ app', (searchWord env404 "hello" app0).outcome = .ok app' ∧ app'.Error.isSome = true :=
  (c1_amended_classify_20 env404 "hello" "404 Not Found" [2] sampleErr [sampleWord] app0
    rfl (Or.inl (by decide)) rfl rfl rfl).mpr (by decide)

/-! ### Claim C2 -/

/-- C2, counterexample: a word containing `".."` components makes
`path.Join(cacheRoot, word)` escape the cache root, and `searchWord`
attempts a file read at the escaped location. -/
theorem c2_counterexample :
    goJoin "/var/cache/godict" "../../../etc/passwd" = "/etc/passwd" ∧
    (searchWord envQuiet "../../../etc/passwd" appG).reads = ["/etc/passwd"] ∧
    ¬ isWithin "/var/cache/godict" "/etc/passwd" := by
  refine ⟨by decide, by decide, ?_⟩
  rintro (h | ⟨rest, h⟩)
  · exact absurd h (by decide)
  · have hlen := congrArg String.length h
    rw [String.length_append, String.length_append] at hlen
    have e0 : ("/etc/passwd" : String).length = 11 := by decide
    have e1 : ("/var/cache/godict" : String).length = 17 := by decide
    have e2 : ("/" : String).length = 1 := by decide
    rw [e0, e1, e2] at hlen
    omega

/-- C2, amended: for every word with no `".."` component, every cache
file `searchWord` reads or writes is within the (clean, non-degenerate)
cache root. -/
theorem c2_amended_within_root {T : Type} (env : Env) (word : String) (app : AppContext T)
    (hclean : clean app.CacheDir = app.CacheDir)
    (h0 : app.CacheDir ≠ "") (h1 : app.CacheDir ≠ "/") (h2 : app.CacheDir ≠ ".")
    (hw : ['.', '.'] ∉ splitSlash [] word.data) :
    (∀ p ∈ (searchWord env word app).reads, isWithin app.CacheDir p) ∧
    (∀ pb ∈ (searchWord env word app).writes, isWithin app.CacheDir pb.1) := by
  have hjoin := goJoin_within app.CacheDir word hclean h0 h1 h2 hw
  constructor
  · intro p hp
    have he := searchWord_reads_eq env word app p hp
    rw [he]
    exact hjoin
  · intro pb hpb
    have he := searchWord_writes_fst env word app pb hpb
    rw [he]
    exact hjoin

/-- C2, witness for the amended theorem at a traversal-free word. -/
theorem c2_amended_within_root_witness :
    (∀ p ∈ (searchWord envQuiet "hello" appG).reads, isWithin appG.CacheDir p) ∧
    (∀ pb ∈ (searchWord envQuiet "hello" appG).writes, isWithin appG.CacheDir pb.1) :=
  c2_amended_within_root envQuiet "hello" appG (by decide) (by decide) (by decide)
    (by decide) (by decide)

/-! ### Claim C3 -/

/-- C3: when the cache is in use and the cache file is readable,
`searchWord` makes no HTTP call, writes nothing, and populates `Words`
solely from the decoded cached payload. -/
theorem c3_cache_hit_no_network {T : Type} (env : Env) (word : String) (app : AppContext T)
    (data : Bytes) (ws : List Word)
    (hg : goJoin app.CacheDir word ≠ word)
    (hr : env.readFile (goJoin app.CacheDir word) = .ok data)
    (hd : env.decodeWords data = some ws) :
    searchWord env word app =
      ⟨.ok { app with Words := ws }, [goJoin app.CacheDir word], [], []⟩ := by
  simp [searchWord, hg, hr, hd]

/-- C3, witness: a cache hit decoding to the empty entry list still
short-circuits the network. -/
theorem c3_cache_hit_no_network_witness :
    searchWord envCacheHit "hello" appG =
      ⟨.ok { appG with Words := [] }, ["/var/cache/godict/hello"], [], []⟩ :=
  c3_cache_hit_no_network envCacheHit "hello" appG [7] []
    (by decide) (by decide) (by decide)

/-! ### Claim C4 -/

/-- C4: with `$XDG_CACHE_HOME` and `$HOME` both unset, `initCacheDir`
reaches `log.Fatal` and startup aborts — contradicting both the claim
and the function's own doc comment ("If the initialization fails, an
empty string is returned, indicating that caching is disabled"). -/
theorem c4_home_unset_fatal :
    initCacheDir ⟨fun _ => "", fun _ => true⟩ = .fatal := rfl

/-! ### Claim C5 -/

/-- C5, counterexample: `main` wraps each endpoint in its own
`handleWithRateLimit` call, so each endpoint owns its own ticker.  Two
requests to two different endpoints within one replenishment interval
are BOTH admitted — not "exactly one admitted" as the claim of a single
shared token source requires. -/
theorem c5_counterexample :
    runRequests allTicked [Endpoint.root, Endpoint.search] = [true, true] ∧
    (runRequests allTicked [Endpoint.root, Endpoint.search]).count true ≠ 1 := by
  constructor
  · decide
  · decide

/-- C5, amended: the limiter is per endpoint.  Among any non-empty set
of requests all aimed at one endpoint within one replenishment interval
(no tick in between), starting with that endpoint's token available,
exactly one request is admitted (invokes the wrapped handler) and the
rest are rejected. -/
theorem c5_amended_per_endpoint (st : ServerState) (e : Endpoint) (es : List Endpoint)
    (hne : es ≠ []) (hall : ∀ x ∈ es, x = e) (htok : (st.limiter e).token = true) :
    (runRequests st es).count true = 1 := by
  cases es with
  | nil => exact absurd rfl hne
  | cons x xs =>
    have hx : x = e := hall x (List.mem_cons_self x xs)
    subst hx
    have hadm : handleRequest st x = (true, st.setLimiter x ⟨false⟩) := by
      simp [handleRequest, RLimiter.tryAdmit, htok]
    simp only [runRequests, hadm]
    simp only [List.count_cons]
    have hrec := runRequests_no_token x xs (st.setLimiter x ⟨false⟩)
      (fun y hy => hall y (List.mem_cons_of_mem _ hy))
      (by rw [limiter_setLimiter])
    simp [hrec]

/-- C5, witness for the amended theorem: three same-endpoint requests
in one interval, exactly one admitted. -/
theorem c5_amended_per_endpoint_witness :
    (runRequests allTicked [Endpoint.search, Endpoint.search, Endpoint.search]).count true = 1 :=
  c5_amended_per_endpoint allTicked Endpoint.search
    [Endpoint.search, Endpoint.search, Endpoint.search]
    (by decide) (by decide) (by decide)

/-! ### Claim C6 -/

/-- C6, counterexample: the degenerate word `"."` resolves to the cache
root itself, yet `searchWord` still attempts a read of the cache root
and — on a 2xx response — a write to it; caching is not skipped. -/
theorem c6_counterexample :
    goJoin "/var/cache/godict" "." = "/var/cache/godict" ∧
    (searchWord env200 "." appG).reads = ["/var/cache/godict"] ∧
    (searchWord env200 "." appG).writes = [("/var/cache/godict", [3])] := by
  refine ⟨by decide, by decide, by decide⟩

/-- C6, amended: caching is skipped (no cache read and no cache write)
exactly in the code's guard case — when the derived cache path equals
the word itself, as happens whenever the cache root is empty and the
word is an already-clean path.  Whenever the derived path differs from
the word, a cache read is attempted (so a degenerate key resolving to
the cache root is not skipped). -/
theorem c6_amended_skip_iff_guard {T : Type} (env : Env) (word : String) (app : AppContext T) :
    ((searchWord env word app).reads = [] ∧ (searchWord env word app).writes = [])
      ↔ goJoin app.CacheDir word = word := by
  constructor
  · rintro ⟨hr, -⟩
    by_contra hg
    have hread : (searchWord env word app).reads = [goJoin app.CacheDir word] := by
      simp only [searchWord]
      rw [if_pos hg]
      split
      all_goals first
      | rfl
      | (split <;> rfl)
    rw [hread] at hr
    exact absurd hr (by simp)
  · intro hg
    have hgg : ¬(goJoin app.CacheDir word ≠ word) := fun h => h hg
    constructor
    · simp only [searchWord]
      rw [if_neg hgg]
    · simp only [searchWord]
      rw [if_neg hgg]
      exact fetchWord_writes_of_eq env word app _ hg

/-- C6, witness for the amended theorem: caching disabled (empty root)
and a clean word — no cache file is read or written. -/
theorem c6_amended_skip_iff_guard_witness :
    (searchWord env200 "hello" app0).reads = [] ∧
    (searchWord env200 "hello" app0).writes = [] :=
  (c6_amended_skip_iff_guard env200 "hello" app0).mpr (by decide)

/-! ### Claim C7 -/

/-- C7: on an upstream response whose status text does not begin with
`"2"` and whose body decodes as a `LookupError`, `searchWord` sets the
context's `Error` to that record with `" — " ++ word` appended to its
title, and attempts no cache write. -/
theorem c7_non2xx_error_title {T : Type} (env : Env) (word status : String) (body : Bytes)
    (e : ErrorResponse) (app : AppContext T)
    (hmiss : goJoin app.CacheDir word = word ∨
      (env.readFile (goJoin app.CacheDir word)).isOk = false)
    (hresp : env.fetch (baseUrl ++ word) = .response status body)
    (h2 : hasPfx status "2" = false)
    (hde : env.decodeError body = some e) :
    (searchWord env word app).writes = [] ∧
    ∃ app', (searchWord env word app).outcome = .ok app' ∧
      app'.Error = some ⟨e.Title ++ (" — " ++ word), e.Message⟩ := by
  have h20 : hasPfx status "20" = false := by
    cases hh : hasPfx status "20" with
    | false => rfl
    | true => rw [hasPfx_two_of_twozero status hh] at h2; exact absurd h2 (by simp)
  obtain ⟨ho, hw⟩ := searchWord_of_miss env word app hmiss
  refine ⟨?_, ?_⟩
  · rw [hw]
    simp [fetchWord, hresp, h20, hde]
  · rw [ho]
    refine ⟨{ app with Error := some ⟨e.Title ++ (" — " ++ word), e.Message⟩ }, ?_, rfl⟩
    have hassoc : e.Title ++ " — " ++ word = e.Title ++ (" — " ++ word) := by
      apply String.ext
      simp [String.data_append]
    simp [fetchWord, hresp, h20, hde, hassoc]

/-- C7, witness at a concrete `404 Not Found` lookup for `"hello"`. -/
theorem c7_non2xx_error_title_witness :
    (searchWord env404 "hello" appG).writes = [] ∧
    ∃ app', (searchWord env404 "hello" appG).outcome = .ok app' ∧
      app'.Error = some ⟨sampleErr.Title ++ (" — " ++ "hello"), sampleErr.Message⟩ :=
  c7_non2xx_error_title env404 "hello" "404 Not Found" [2] sampleErr appG
    (Or.inr (by decide)) rfl (by decide) rfl

/-! ### Claim C8 -/

/-- C8: all three decode-failure sites in `searchWord` — a readable
cached payload that fails to decode (line 61), a non-2xx body that
fails to decode as a `LookupError` (line 89), and a 2xx body that fails
to decode as an entry list (line 105) — reach `log.Fatal` and abort the
whole process. -/
theorem c8_decode_failure_fatal {T : Type} (env : Env) (word : String) (app : AppContext T) :
    (∀ data, goJoin app.CacheDir word ≠ word →
      env.readFile (goJoin app.CacheDir word) = .ok data →
      env.decodeWords data = none →
      (searchWord env word app).outcome = .fatal) ∧
    (∀ status body,
      (goJoin app.CacheDir word = word ∨
        (env.readFile (goJoin app.CacheDir word)).isOk = false) →
      env.fetch (baseUrl ++ word) = .response status body →
      hasPfx status "20" = false →
      env.decodeError body = none →
      (searchWord env word app).outcome = .fatal) ∧
    (∀ status body,
      (goJoin app.CacheDir word = word ∨
        (env.readFile (goJoin app.CacheDir word)).isOk = false) →
      env.fetch (baseUrl ++ word) = .response status body →
      hasPfx status "20" = true →
      env.decodeWords body = none →
      (searchWord env word app).outcome = .fatal) := by
  refine ⟨?_, ?_, ?_⟩
  · intro data hg hr hd
    simp [searchWord, hg, hr, hd]
  · intro status body hmiss hresp hs hde
    rw [(searchWord_of_miss env word app hmiss).1]
    simp [fetchWord, hresp, hs, hde]
  · intro status body hmiss hresp hs hdw
    rw [(searchWord_of_miss env word app hmiss).1]
    simp [fetchWord, hresp, hs, hdw]

/-- C8, witness: all three decode-failure sites hit at concrete
environments. -/
theorem c8_decode_failure_fatal_witness :
    (searchWord envBadCache "hello" appG).outcome = .fatal ∧
    (searchWord envBadErr "hello" appG).outcome = .fatal ∧
    (searchWord envBadBody "hello" appG).outcome = .fatal :=
  ⟨(c8_decode_failure_fatal envBadCache "hello" appG).1 [9] (by decide) rfl rfl,
   (c8_decode_failure_fatal envBadErr "hello" appG).2.1 "404 Not Found" [9]
     (Or.inr rfl) rfl (by decide) rfl,
   (c8_decode_failure_fatal envBadBody "hello" appG).2.2 "200 OK" [9]
     (Or.inr rfl) rfl (by decide) rfl⟩

/-! ### Claim C9 -/

/-- C9: starting from a freshly constructed per-request context (no
error, empty word list), no successful `searchWord` outcome has both
`Error` set and a non-empty `Words` list. -/
theorem c9_error_words_exclusive {T : Type} (env : Env) (word : String) (app : AppContext T)
    (happE : app.Error = none) (happW : app.Words = []) :
    ∀ app', (searchWord env word app).outcome = .ok app' →
      ¬(app'.Error.isSome = true ∧ app'.Words ≠ []) := by
  rintro app' h ⟨hE, hW⟩
  rcases searchWord_ok_shape env word app app' h with rfl | ⟨ws, rfl⟩ | ⟨e, rfl⟩
  · rw [happE] at hE; simp at hE
  · simp [happE] at hE
  · simp [happW] at hW

/-- C9, witness: an error-producing lookup on a fresh context does not
leave both fields populated. -/
theorem c9_error_words_exclusive_witness :
    ¬((some ⟨"No Definitions Found — hello", "Sorry, we could not find it."⟩ :
        Option ErrorResponse).isSome = true ∧
      ({ appG with Error := some ⟨"No Definitions Found — hello",
        "Sorry, we could not find it."⟩ } : AppContext Unit).Words ≠ []) :=
  c9_error_words_exclusive env404 "hello" appG rfl rfl
    { appG with Error := some ⟨"No Definitions Found — hello",
      "Sorry, we could not find it."⟩ } (by decide)

/-! ### Claim C10 -/

/-- C10: every successful `searchWord` outcome preserves the context's
`CacheDir` and `Template` fields; only `Words` and `Error` may change. -/
theorem c10_frame_cachedir_template {T : Type} (env : Env) (word : String)
    (app : AppContext T) :
    ∀ app', (searchWord env word app).outcome = .ok app' →
      app'.CacheDir = app.CacheDir ∧ app'.Template = app.Template := by
  intro app' h
  rcases searchWord_ok_shape env word app app' h with rfl | ⟨ws, rfl⟩ | ⟨e, rfl⟩
  · exact ⟨rfl, rfl⟩
  · exact ⟨rfl, rfl⟩
  · exact ⟨rfl, rfl⟩

/-- C10, witness: a successful 2xx lookup leaves `CacheDir` and
`Template` untouched. -/
theorem c10_frame_cachedir_template_witness :
    ({ appG with Words := [sampleWord] } : AppContext Unit).CacheDir = appG.CacheDir ∧
    ({ appG with Words := [sampleWord] } : AppContext Unit).Template = appG.Template :=
  c10_frame_cachedir_template env200 "hello" appG
    { appG with Words := [sampleWord] } (by decide)

end DictGo
